import Mathlib

/-!
Verification development for the `schema-ui-angular-fields` repository.

Shallow embedding of the library's pure/stateful core into Lean:
`LinkedDataCache` (linked-data-cache.service, the current variant with the
`removeBy` helper, plus the earlier splice-loop variant where a claim refers
to it), `CachedDataProvider`'s agent memoization, `SimplifiedResourceMapper`,
the `BaseFormField` value setter, and the `FieldContextProvider` iteration and
data-extraction methods (`each`/`extract`, `getData`, `getPatchOperations`).

JavaScript runtime values that the code manipulates are modelled by the
`Json` type below (with a dedicated `undefined` constructor for `undefined`,
kept distinct from `null`); promises are identified by opaque `Nat` ids,
since only identity of a promise is ever compared by the code under study.
-/

namespace SchemaUI

/-! ### JavaScript value model

`Json` models the runtime values the library manipulates: `undefined` is the JS
`undefined` (distinct from `null`), numbers are integers (`Int`; the only
non-integer number the studied code can produce is `NaN` from `parseInt`,
which is modelled where it occurs as `Option Int` with `none` = `NaN`),
objects are association lists. -/

inductive Json where
  | undefined : Json
  | null : Json
  | bool : Bool → Json
  | num : Int → Json
  | str : String → Json
  | arr : List Json → Json
  | obj : List (String × Json) → Json

/-- JS truthiness of a value (`undefined`, `null`, `false`, `0` and `""` are
falsy; arrays and objects are always truthy). -/
def jsTruthy : Json → Bool
  | .undefined => false
  | .null => false
  | .bool b => b
  | .num n => n != 0
  | .str s => s != ""
  | .arr _ => true
  | .obj _ => true

/-- Property read `item[key]` on a plain object given as an association list
(`undefined` when the key is absent). -/
def jsIndex (item : List (String × Json)) (key : String) : Json :=
  match item.find? (fun e => e.1 == key) with
  | some e => e.2
  | none => .undefined

/-- The JS `||` operator on values: the first operand when truthy, else the
second. -/
def jsOr (a b : Json) : Json :=
  if jsTruthy a then a else b

mutual

/-- JS `String(v)` coercion: `"undefined"`, `"null"`, booleans and integers
printed, arrays joined by `","` (with `null`/`undefined` elements printed as
the empty string), plain objects as `"[object Object]"`. -/
def jsToString : Json → String
  | .undefined => "undefined"
  | .null => "null"
  | .bool true => "true"
  | .bool false => "false"
  | .num n => toString n
  | .str s => s
  | .arr l => String.intercalate "," (jsToStringElems l)
  | .obj _ => "[object Object]"

/-- Element-wise stringification used by `Array.prototype.join`. -/
def jsToStringElems : List Json → List String
  | [] => []
  | .undefined :: rest => "" :: jsToStringElems rest
  | .null :: rest => "" :: jsToStringElems rest
  | x :: rest => jsToString x :: jsToStringElems rest

end

/-- The value of a decimal digit prefix of a character list, `none` when the
list does not start with a digit. -/
def digitsPrefixVal (cs : List Char) : Option Nat :=
  let ds := cs.takeWhile (fun c => c.isDigit)
  if ds.isEmpty then none
  else some (ds.foldl (fun a c => a * 10 + (c.toNat - '0'.toNat)) 0)

/-- `parseInt(s, 10)`: skip leading whitespace, optional sign, then the
longest decimal-digit prefix; `none` models the `NaN` result when no digit
follows. -/
def parseIntStr (s : String) : Option Int :=
  match s.data.dropWhile (fun c => c.isWhitespace) with
  | '-' :: rest => (digitsPrefixVal rest).map (fun n => -(n : Int))
  | '+' :: rest => (digitsPrefixVal rest).map (fun n => (n : Int))
  | cs => (digitsPrefixVal cs).map (fun n => (n : Int))

/-- `parseInt(v, 10)` on an arbitrary value: JS first coerces to string. -/
def parseIntJS (v : Json) : Option Int :=
  parseIntStr (jsToString v)

/-! ### LinkedDataCache (src/unnamed/part_003, second/current variant)

A cache entry as stored by the class (`LinkedDataCacheItem`): `targetSchemaId`
is optional (`Option String`, `none` = the JS `undefined`), and `state` is an
opaque promise identity. -/

structure CacheItem where
  schemaId : String
  link : String
  targetSchemaId : Option String
  properties : List String
  state : Nat
deriving DecidableEq, Repr

namespace LinkedDataCache

/-- The private `cache` array of the class. -/
abbrev Cache := List CacheItem

/-- `removeBy(selector)` of the current variant, verbatim: collects into
`filtered` every item for which the selector returns `true`, computes
`removed = cache.length - filtered.length`, and replaces the cache by
`filtered` when `removed > 0`.  Returns the new cache and `removed`. -/
def removeBy (selector : CacheItem → Bool) (cache : Cache) : Cache × Nat :=
  let filtered := cache.filter selector
  let removed := cache.length - filtered.length
  (if removed > 0 then filtered else cache, removed)

/-- `remove(schemaId, link)`: delegates to `removeBy` with the
schemaId-and-link selector. -/
def remove (schemaId link : String) (cache : Cache) : Cache :=
  (removeBy (fun item => item.schemaId == schemaId && item.link == link) cache).1

/-- `push(schemaId, link, targetSchemaId, properties, state)`: first calls
`remove(schemaId, link)`, then appends the new item to the cache array. -/
def push (schemaId link : String) (targetSchemaId : Option String)
    (properties : List String) (state : Nat) (cache : Cache) : Cache :=
  remove schemaId link cache ++
    [{ schemaId := schemaId, link := link, targetSchemaId := targetSchemaId,
       properties := properties, state := state }]

/-- `fetch(schemaId, link, targetSchemaId?)`: returns the `state` of the first
item matching schemaId and link, where the target schema id only filters when
the argument is given (`targetSchemaId == null` in JS covers the omitted
argument, modelled as `none`); returns `null` (here `none`) on a miss. -/
def fetch (schemaId link : String) (targetSchemaId : Option String)
    (cache : Cache) : Option Nat :=
  (cache.find? (fun item =>
    item.schemaId == schemaId && item.link == link &&
      (item.targetSchemaId == targetSchemaId || targetSchemaId == none))).map
    (fun item => item.state)

/-- `purge(schemaId)`: delegates to `removeBy` with the source-or-target
selector (`item.schemaId === schemaId || item.targetSchemaId === schemaId`;
a JS `undefined` target is never `===` to a string). -/
def purge (schemaId : String) (cache : Cache) : Cache :=
  (removeBy (fun item =>
    item.schemaId == schemaId || item.targetSchemaId == some schemaId) cache).1

/-- `invalidate(schemaId, properties?)`: delegates to `removeBy` with the
selector `item.schemaId === schemaId && (properties == null ||
item.properties.some(x => properties.indexOf(x) >= 0))`. -/
def invalidate (schemaId : String) (properties : Option (List String))
    (cache : Cache) : Cache :=
  (removeBy (fun item =>
    item.schemaId == schemaId &&
      (match properties with
       | none => true
       | some ps => item.properties.any (fun x => ps.contains x))) cache).1

/-- `clear()`: empties the cache. -/
def clear (_cache : Cache) : Cache := []

end LinkedDataCache

/-! The first (earlier) variant of the class in the same source file removes
entries with an index-based loop that calls `splice(i, 1)` and then still
increments `i`, so the element that slides into position `i` is skipped.
`spliceRemoveAll` models that loop for a given selector (used by the earlier
`remove`, `purge` and `invalidate`). -/

namespace LinkedDataCacheEarly

/-- The `for (i...) { if (sel) splice(i, 1) }` loop of the earlier variant:
removing the element at `i` shifts the next element into position `i`, which
the subsequent `i++` then skips. -/
def spliceRemoveAll (selector : CacheItem → Bool) :
    LinkedDataCache.Cache → LinkedDataCache.Cache
  | [] => []
  | [x] => if selector x then [] else [x]
  | x :: y :: rest =>
      if selector x then y :: spliceRemoveAll selector rest
      else x :: spliceRemoveAll selector (y :: rest)

/-- `purge(schemaId)` of the earlier variant. -/
def purge (schemaId : String) (cache : LinkedDataCache.Cache) :
    LinkedDataCache.Cache :=
  spliceRemoveAll (fun item =>
    item.schemaId == schemaId || item.targetSchemaId == some schemaId) cache

end LinkedDataCacheEarly

/-! ### CachedDataProvider agent memoization (src/unnamed/part_010)

`resolveAgent` / `resolveAgentChild` memoize promises of resolved agents in
the private `agents` object, keyed by string concatenation.  Promises are
opaque `Nat` ids: `fresh` stands for the promise built from
`this.resolver.getAgent(schemaId).then(...)` (the resolver and continuation
are external effects; the resolver is assumed to return a promise, i.e. the
reject-on-falsy branch is not taken), and `childFresh` for the promise from
`agent.createChildByLink(...)`. -/

namespace CachedDataProvider

/-- The `agents` memo object; property assignment prepends, lookup finds the
most recent binding. -/
abbrev Memo := List (String × Nat)

/-- Reading `this.agents[cacheKey]` (`none` = no property / falsy). -/
def memoGet (memo : Memo) (key : String) : Option Nat :=
  (memo.find? (fun e => e.1 == key)).map (fun e => e.2)

/-- Assigning `this.agents[cacheKey] = p`. -/
def memoSet (memo : Memo) (key : String) (p : Nat) : Memo :=
  (key, p) :: memo

/-- The JS guard `forceReload !== false` for an optional boolean parameter
(`none` = argument omitted / `undefined`). -/
def neqFalseJS : Option Bool → Bool
  | some false => false
  | _ => true

/-- `resolveAgent(schemaId, linkName, context, forceReload)`: returns the
memoized promise when one exists under `schemaId + linkName` and
`forceReload !== false`; otherwise resolves freshly and persists the new
promise under the key before returning it. -/
def resolveAgent (memo : Memo) (schemaId linkName : String)
    (forceReload : Option Bool) (fresh : Nat) : Nat × Memo :=
  let cacheKey := schemaId ++ linkName
  match memoGet memo cacheKey with
  | some p =>
      if neqFalseJS forceReload then (p, memo)
      else (fresh, memoSet memo cacheKey fresh)
  | none => (fresh, memoSet memo cacheKey fresh)

/-- Outcome of `resolveAgentChild`: a memo hit, the agent itself wrapped in
`Promise.resolve([agent, false])` (not memoized), a thrown error for a
missing link, or a persisted child-agent promise. -/
inductive ChildOutcome where
  | memoHit (p : Nat)
  | selfAgent
  | thrown
  | childResolved (p : Nat)
deriving DecidableEq, Repr

/-- The CRUD-or-list link names that short-circuit `resolveAgentChild`. -/
def isCrudLink (linkName : String) : Bool :=
  linkName == "create" || linkName == "read" || linkName == "update" ||
    linkName == "delete" || linkName == "list"

/-- `resolveAgentChild(agent, linkName, context, forceReload,
forceResolveChild)`: memo hit under `agent.schema.schemaId + linkName +
'child'` when present and `forceReload !== false`; CRUD/list links and links
whose URI template has pointers (unless `forceResolveChild === true`) return
the agent itself *without* touching the memo; a missing link throws; only the
resolve-through branch persists the child promise under the key. -/
def resolveAgentChild (memo : Memo) (agentSchemaId linkName : String)
    (forceReload : Option Bool) (hasLink hasUriTemplatePointers : Bool)
    (forceResolveChild : Option Bool) (childFresh : Nat) :
    ChildOutcome × Memo :=
  let cacheKey := agentSchemaId ++ linkName ++ "child"
  match memoGet memo cacheKey with
  | some p =>
      if neqFalseJS forceReload then (ChildOutcome.memoHit p, memo)
      else resolveAgentChildMiss memo cacheKey linkName hasLink
        hasUriTemplatePointers forceResolveChild childFresh
  | none => resolveAgentChildMiss memo cacheKey linkName hasLink
      hasUriTemplatePointers forceResolveChild childFresh
where
  /-- The body after the memo check. -/
  resolveAgentChildMiss (memo : Memo) (cacheKey linkName : String)
      (hasLink hasUriTemplatePointers : Bool)
      (forceResolveChild : Option Bool) (childFresh : Nat) :
      ChildOutcome × Memo :=
    if isCrudLink linkName then (ChildOutcome.selfAgent, memo)
    else if !hasLink then (ChildOutcome.thrown, memo)
    else if forceResolveChild != some true && hasUriTemplatePointers then
      (ChildOutcome.selfAgent, memo)
    else (ChildOutcome.childResolved childFresh,
      memoSet memo cacheKey childFresh)

end CachedDataProvider

/-! ### JSON-Pointer helpers

The library reads/writes data objects through `pointerGet` / `pointerSet` /
`pointerHas` / `pointerRemove` / `tryPointerGet` imported from the external
`json-schema-services` package; they are modelled here with standard RFC 6901
semantics matching the `json-pointer` npm behaviour: `get` fails on a missing
path *and* on a property whose stored value is `undefined`; `set` creates
intermediate containers for missing tokens (an array when the next token is
numeric) and silently has no effect when asked to write a property on a
primitive; `remove` deletes an object property (array holes become
`undefined`). -/

/-- RFC 6901 token unescaping (`~1` → `/`, `~0` → `~`, left to right). -/
def unescapeChars : List Char → List Char
  | [] => []
  | '~' :: '1' :: rest => '/' :: unescapeChars rest
  | '~' :: '0' :: rest => '~' :: unescapeChars rest
  | c :: rest => c :: unescapeChars rest

/-- Split a character list on `/`. -/
def splitSlash : List Char → List Char → List (List Char)
  | [], acc => [acc.reverse]
  | c :: rest, acc =>
      if c == '/' then acc.reverse :: splitSlash rest []
      else splitSlash rest (c :: acc)

/-- Split a pointer string into reference tokens (`""` → whole document). -/
def parsePointer (s : String) : List String :=
  match splitSlash s.data [] with
  | [] => []
  | _ :: rest => rest.map (fun cs => String.mk (unescapeChars cs))

/-- A reference token read as an array index (decimal digits only). -/
def strToIndex? (tok : String) : Option Nat :=
  if tok.data.isEmpty then none
  else if tok.data.all (fun c => c.isDigit) then
    some (tok.data.foldl (fun a c => a * 10 + (c.toNat - '0'.toNat)) 0)
  else none

/-- One dereference step (`undefined`-valued properties count as absent). -/
def jsGetTok (j : Json) (tok : String) : Option Json :=
  match j with
  | .obj members =>
      match members.find? (fun e => e.1 == tok) with
      | some (_, .undefined) => none
      | some (_, v) => some v
      | none => none
  | .arr elems =>
      match strToIndex? tok with
      | some i =>
          match elems.get? i with
          | some .undefined => none
          | some v => some v
          | none => none
      | none => none
  | _ => none

/-- `pointerGet` over parsed tokens. -/
def pointerGetToks : Json → List String → Option Json
  | j, [] => some j
  | j, t :: ts =>
      match jsGetTok j t with
      | some c => pointerGetToks c ts
      | none => none

/-- `pointerGet(obj, pointer)` (`none` = the library call throws). -/
def pointerGet (j : Json) (ptr : String) : Option Json :=
  pointerGetToks j (parsePointer ptr)

/-- `pointerHas(obj, pointer)`. -/
def pointerHas (j : Json) (ptr : String) : Bool :=
  (pointerGet j ptr).isSome

/-- `tryPointerGet(obj, pointer)`: `undefined` instead of throwing. -/
def tryPointerGetJS (j : Json) (ptr : String) : Json :=
  (pointerGet j ptr).getD .undefined

/-- One assignment step `obj[tok] = v` (no effect on primitives; array
writes only in range or directly appending). -/
def jsSetTok (j : Json) (tok : String) (v : Json) : Json :=
  match j with
  | .obj members =>
      if (members.find? (fun e => e.1 == tok)).isSome then
        .obj (members.map (fun e => if e.1 == tok then (e.1, v) else e))
      else .obj (members ++ [(tok, v)])
  | .arr elems =>
      match strToIndex? tok with
      | some i =>
          if i < elems.length then .arr (elems.set i v)
          else if i == elems.length then .arr (elems ++ [v])
          else .arr elems
      | none => .arr elems
  | other => other

/-- `pointerSet` over parsed tokens; missing intermediate tokens create an
empty array when the following token is numeric (or `-`), else an empty
object. -/
def pointerSetToks : Json → List String → Json → Json
  | _, [], v => v
  | j, [t], v => jsSetTok j t v
  | j, t :: t' :: ts, v =>
      let child :=
        match jsGetTok j t with
        | some c => c
        | none => if (strToIndex? t').isSome || t' == "-" then Json.arr [] else Json.obj []
      jsSetTok j t (pointerSetToks child (t' :: ts) v)

/-- `pointerSet(obj, pointer, value)`. -/
def pointerSet (j : Json) (ptr : String) (v : Json) : Json :=
  pointerSetToks j (parsePointer ptr) v

/-- One deletion step `delete obj[tok]` (array holes become `undefined`). -/
def jsRemoveTok (j : Json) (tok : String) : Json :=
  match j with
  | .obj members => .obj (members.filter (fun e => !(e.1 == tok)))
  | .arr elems =>
      match strToIndex? tok with
      | some i => if i < elems.length then .arr (elems.set i .undefined) else .arr elems
      | none => .arr elems
  | other => other

/-- `pointerRemove` over parsed tokens (no effect on a missing path). -/
def pointerRemoveToks : Json → List String → Json
  | j, [] => j
  | j, [t] => jsRemoveTok j t
  | j, t :: t' :: ts =>
      match jsGetTok j t with
      | some c => jsSetTok j t (pointerRemoveToks c (t' :: ts))
      | none => j

/-- `pointerRemove(obj, pointer)`. -/
def pointerRemove (j : Json) (ptr : String) : Json :=
  pointerRemoveToks j (parsePointer ptr)

/-! ### SimplifiedResourceMapper (src/src/mapper/simplified-resource-mapper.ts;
the `src/src/simplified-resource-mapper.ts` variant has the identical
`transform` and `getOrder`)

The mapper state carries the parts of the constructor arguments the studied
methods read: `field.data` (with the declared property names), the field's
`targetIdentity`, the display-name generator compiled from
`field.data.displayTemplate` (an opaque function from the external
`string-template` package, present exactly when a template string was
declared), and the external `schema.getIdentityValue` (`none` = it throws). -/

/-- The declared property names inside `field.data`. -/
structure FieldData where
  label : Option String
  description : Option String
  order : Option String
  value : Option String
  parent : Option String

/-- A raw item: a plain JS object. -/
abbrev Item := List (String × Json)

/-- The mapper's relevant construction-time state. -/
structure Mapper where
  data : Option FieldData
  targetIdentity : Option String
  displaynameGenerator : Option (Item → String)
  schemaIdentityValue : Item → Option Json

/-- The record produced for each item by `transform`. -/
structure SimplifiedLinkedResource where
  name : Json
  description : Json
  order : Option Int
  value : Json
  parent : Json
  original : Json

namespace SimplifiedResourceMapper

/-- `getDisplayName(item)`: compiled display template wins; else the declared
label property; else `item.name || item.displayName || item.internalName ||
item.entity`. -/
def getDisplayName (m : Mapper) (item : Item) : Json :=
  match m.displaynameGenerator with
  | some gen => .str (gen item)
  | none =>
      match m.data.bind (fun d => d.label) with
      | none =>
          jsOr (jsIndex item "name") (jsOr (jsIndex item "displayName")
            (jsOr (jsIndex item "internalName") (jsIndex item "entity")))
      | some lbl => jsIndex item lbl

/-- `getDescription(item)`. -/
def getDescription (m : Mapper) (item : Item) : Json :=
  match m.data.bind (fun d => d.description) with
  | none => jsIndex item "description"
  | some key => jsIndex item key

/-- `getOrder(item)`: `parseInt(item['order'], 10) || 0` when no order
property is declared, else `parseInt(item[declared], 10)` with *no* fallback
(`none` = the `NaN` result). -/
def getOrder (m : Mapper) (item : Item) : Option Int :=
  match m.data.bind (fun d => d.order) with
  | none => some ((parseIntJS (jsIndex item "order")).getD 0)
  | some key => parseIntJS (jsIndex item key)

/-- `getIdentityValue(item)`: declared value property wins; else a declared
`targetIdentity` pointer of length > 1 is resolved against the item; else the
schema's identity value, falling back to `item.id || item.name || item.entity`
when that throws. -/
def getIdentityValue (m : Mapper) (item : Item) : Json :=
  match m.data.bind (fun d => d.value) with
  | some key => jsIndex item key
  | none =>
      let schemaFallback :=
        match m.schemaIdentityValue item with
        | some v => v
        | none => jsOr (jsIndex item "id") (jsOr (jsIndex item "name") (jsIndex item "entity"))
      match m.targetIdentity with
      | some t =>
          if t.length > 1 then
            tryPointerGetJS (.obj item)
              (match t.data with
               | '/' :: _ => t
               | _ => "/" ++ t)
          else schemaFallback
      | none => schemaFallback

/-- `getParentValue(item)`. -/
def getParentValue (m : Mapper) (item : Item) : Json :=
  match m.data.bind (fun d => d.parent) with
  | none => jsIndex item "parent"
  | some key => jsIndex item key

/-- Stable insertion of `x` into `l` under an integer-valued comparator
(`cmp x y ≤ 0` = `x` may precede `y`). -/
def insertCmp {α : Type} (cmp : α → α → Int) (x : α) : List α → List α
  | [] => [x]
  | y :: ys => if cmp x y ≤ 0 then x :: y :: ys else y :: insertCmp cmp x ys

/-- Stable comparator sort modelling `Array.prototype.sort(comparator)` (the
JS sort is only specified for consistent comparators; any correct stable sort
agrees with this one there). -/
def sortCmp {α : Type} (cmp : α → α → Int) : List α → List α
  | [] => []
  | x :: xs => insertCmp cmp x (sortCmp cmp xs)

/-- JS `===` on the number-or-NaN order values (`NaN === NaN` is `false`). -/
def numStrictEq : Option Int → Option Int → Bool
  | some a, some b => a == b
  | _, _ => false

/-- JS `>` on number-or-NaN values (every comparison with `NaN` is `false`). -/
def numGtJS : Option Int → Option Int → Bool
  | some a, some b => decide (b < a)
  | _, _ => false

/-- `String.prototype.localeCompare`, modelled as code-point comparison. -/
def localeCompare (a b : String) : Int :=
  if a < b then -1
  else if b < a then 1
  else 0

/-- The comparator passed to `.sort` by `transform`. -/
def compareResources (a b : SimplifiedLinkedResource) : Int :=
  if numStrictEq a.order b.order then
    localeCompare (jsToString a.name) (jsToString b.name)
  else if numGtJS a.order b.order then 1
  else -1

/-- Truthiness of the optional `includeOriginal` argument. -/
def jsTruthyOptBool (o : Option Bool) : Bool :=
  o.getD false

/-- `transform(items, includeOriginal?)`: map each item to a record, then
sort with `compareResources`. -/
def transform (m : Mapper) (items : List Item) (includeOriginal : Option Bool) :
    List SimplifiedLinkedResource :=
  sortCmp compareResources (items.map (fun item =>
    { name := getDisplayName m item
      description := getDescription m item
      order := getOrder m item
      value := getIdentityValue m item
      parent := getParentValue m item
      original := if jsTruthyOptBool includeOriginal then .obj item else .null }))

/-- The ordering the claim asserts for adjacent result pairs:
`a.order < b.order`, or `a.order === b.order` and `a.name` at most `b.name`
(on `NaN` orders the strict comparison and `===` are both false, so no
disjunct holds). -/
def claimLe (a b : SimplifiedLinkedResource) : Bool :=
  match a.order, b.order with
  | some x, some y =>
      decide (x < y) || (x == y && decide (jsToString a.name ≤ jsToString b.name))
  | _, _ => false

end SimplifiedResourceMapper

/-! Concrete mapper instances and items used by the theorems below. -/

/-- A mapper whose field declares `data.order = "o"` and nothing else; the
schema identity lookup throws. -/
def exampleMapper : Mapper :=
  { data := some { label := none, description := none, order := some "o",
                   value := none, parent := none }
    targetIdentity := none
    displaynameGenerator := none
    schemaIdentityValue := fun _ => none }

/-- A mapper whose field declares no `data` at all. -/
def exampleMapperConv : Mapper :=
  { data := none
    targetIdentity := none
    displaynameGenerator := none
    schemaIdentityValue := fun _ => none }

/-- An item whose declared order property holds the unparseable string
`"x"` (so `parseInt` yields `NaN`). -/
def exampleItemNanOrder : Item := [("o", Json.str "x"), ("name", Json.str "b")]

/-- An item with numeric order `0`. -/
def exampleItemZeroOrder : Item := [("o", Json.num 0), ("name", Json.str "a")]

/-- The record `transform` produces for `exampleItemNanOrder`. -/
def exampleResourceNan : SimplifiedLinkedResource :=
  { name := Json.str "b", description := Json.undefined, order := none,
    value := Json.str "b", parent := Json.undefined, original := Json.null }

/-- The record `transform` produces for `exampleItemZeroOrder`. -/
def exampleResourceZero : SimplifiedLinkedResource :=
  { name := Json.str "a", description := Json.undefined, order := some 0,
    value := Json.str "a", parent := Json.undefined, original := Json.null }

/-- An item with declared order property `"5"` (parseable). -/
def exampleItemFive : Item := [("o", Json.str "5"), ("name", Json.str "z")]

/-- An item with declared numeric order `3`. -/
def exampleItemThree : Item := [("o", Json.num 3)]

/-! ### BaseFormField value setter (src/unnamed/part_006)

The generic value type `T` of the field is modelled by `FVal`: JS `===` is
structural on primitives and *reference* equality on objects/arrays, so
object values are represented by an opaque reference id.  (`NaN` values are
outside the model; the setter never produces one.) -/

inductive FVal where
  | undefined : FVal
  | null : FVal
  | bool : Bool → FVal
  | num : Int → FVal
  | str : String → FVal
  | ref : Nat → FVal
deriving DecidableEq, Repr

/-- JS `===` on field values (reference identity on objects). -/
def strictEqFVal (a b : FVal) : Bool :=
  a == b

/-- JS `val == null` (true exactly for `null` and `undefined`). -/
def isNullishFVal : FVal → Bool
  | .undefined => true
  | .null => true
  | _ => false

/-- The `_value` / `_dirty` backing state of a `BaseFormField`. -/
structure FieldValueState where
  value : FVal
  dirty : Bool
deriving DecidableEq, Repr

namespace BaseFormField

/-- The `value` setter: returns the new state and the list of values emitted
on the `changed` subject.  `if (val === this._value || (val == null &&
this._value == null)) return;` else store, mark dirty, emit. -/
def setValue (st : FieldValueState) (val : FVal) : FieldValueState × List FVal :=
  if strictEqFVal val st.value || (isNullishFVal val && isNullishFVal st.value) then
    (st, [])
  else
    ({ value := val, dirty := true }, [val])

end BaseFormField

/-! ### FieldContextProvider (src/src/field-component-swap.directive.ts,
second `FieldContextProvider` class, lines ~1858-3360)

State modelled: the master fieldset list `mapped`, the visibility-filtered
`sets`, and the construction-time `initialValues` object.  A field view
model carries its `visible` flag, its optional mounted instance (`none`
covers both the JS `undefined` "initializing" and `null` "unavailable"
states — both falsy in the guards under study) and the context holding the
field's JSON-Pointer, name, requiredness and schema type. -/

/-- A JSON-Patch operation kind. -/
inductive PatchOpKind where
  | add : PatchOpKind
  | remove : PatchOpKind
  | replace : PatchOpKind
  | test : PatchOpKind
deriving DecidableEq, Repr

/-- A JSON-Patch operation (`value := none` for `remove`, which has no value
member). -/
structure PatchOp where
  op : PatchOpKind
  path : String
  value : Option Json

/-- A mounted field instance: current value, initial value, dirty flag, and
the optional `getPatchOperations` hook of `PatchableFormField`. -/
structure FieldInstance where
  value : Json
  initialValue : Json
  dirty : Bool
  patchOps : Option (Bool → List PatchOp)

/-- The parts of `FieldComponentContext` the studied methods read. -/
structure FieldCtx where
  id : String
  name : String
  pointer : String
  required : Bool
  metaType : String

/-- `FormFieldViewModel` (the `instance` member is named `inst`, `instance`
being reserved in Lean). -/
structure FieldVM where
  visible : Bool
  inst : Option FieldInstance
  ctx : FieldCtx

/-- `FormFieldSet`: id, common root pointer, fields. -/
structure FormFieldSet where
  id : String
  pointer : String
  fields : List FieldVM

/-- The `FieldContextProvider` state used by the studied methods. -/
structure FCP where
  mapped : List FormFieldSet
  sets : List FormFieldSet
  initialValues : Json

/-- `undefined` test (`v === void 0`). -/
def isUndefJson : Json → Bool
  | .undefined => true
  | _ => false

/-- `v == null` on data values. -/
def isNullishJson : Json → Bool
  | .undefined => true
  | .null => true
  | _ => false

namespace FieldContextProvider

/-- All fields of a fieldset list, in iteration order (the nested
`while` loops of `each`/`extract`). -/
def fieldsOf (sets : List FormFieldSet) : List FieldVM :=
  (sets.map (fun s => s.fields)).flatten

/-- The field list visited by `each`/`extract`:
`sets = visibleOnly ? this.mapped : this.sets` — the *unfiltered* master
list when `visibleOnly` is `true` (the default), the visibility-filtered
`sets` when it is `false`. -/
def eachList (st : FCP) (visibleOnly : Bool) : List FieldVM :=
  fieldsOf (if visibleOnly then st.mapped else st.sets)

/-- `extract(iterator, visibleOnly = true)`. -/
def extract {T : Type} (st : FCP) (iterator : FieldVM → T) (visibleOnly : Bool) :
    List T :=
  (eachList st visibleOnly).map iterator

/-- `changeFieldVisibility(iterator)`: sets every mapped field's `visible`
flag (via `each`, i.e. over `mapped`), then rebuilds `sets` as the mapped
fieldsets with fields filtered to the visible ones, dropping fieldsets left
empty. -/
def changeFieldVisibility (st : FCP) (iterator : FieldVM → Bool) : FCP :=
  let mapped' := st.mapped.map (fun s =>
    { s with fields := s.fields.map (fun f => { f with visible := iterator f }) })
  { st with
    mapped := mapped'
    sets := (mapped'.map (fun s =>
      { s with fields := s.fields.filter (fun f => f.visible) })).filter
        (fun s => decide (0 < s.fields.length)) }

/-- `val.length === 0` (only arrays and strings have a numeric `length`). -/
def jsLengthZero : Json → Bool
  | .arr l => l.isEmpty
  | .str s => s == ""
  | _ => false

/-- `isUndefinedValue(field)` — whether the (non-required) field's value is
voidable for its schema type. -/
def isUndefinedValue (f : FieldVM) (inst : FieldInstance) : Bool :=
  if f.ctx.required then false
  else
    match f.ctx.metaType with
    | "integer" => isNullishJson inst.value
    | "string" => match inst.value with
        | .str s => s == ""
        | _ => false
    | "array" => isNullishJson inst.value || jsLengthZero inst.value
    | _ => false

/-- The inner field loop of `getData`: throws (`none`) on a falsy field
pointer; for a mounted instance overlays the value at the pointer, or
removes the pointer when the value is voidable and present. -/
def getDataFields (result : Json) (fields : List FieldVM) : Option Json :=
  match fields with
  | [] => some result
  | f :: rest =>
      if f.ctx.pointer == "" then none
      else
        match f.inst with
        | some inst =>
            if !(isUndefinedValue f inst) then
              getDataFields (pointerSet result f.ctx.pointer inst.value) rest
            else if pointerHas result f.ctx.pointer then
              getDataFields (pointerRemove result f.ctx.pointer) rest
            else getDataFields result rest
        | none => getDataFields result rest

/-- The fieldset loop of `getData`: skips other fieldsets when a fieldset id
is given, creates an empty object at a fieldset pointer (longer than `"/"`)
that is absent from the result, then runs the field loop. -/
def getDataSets (result : Json) (fieldsetId : Option String)
    (sets : List FormFieldSet) : Option Json :=
  match sets with
  | [] => some result
  | s :: rest =>
      if (match fieldsetId with
          | some fid => s.id != fid
          | none => false) then
        getDataSets result fieldsetId rest
      else
        let r1 :=
          if decide (1 < s.pointer.length) && !(pointerHas result s.pointer) then
            pointerSet result s.pointer (Json.obj [])
          else result
        match getDataFields r1 s.fields with
        | some r2 => getDataSets r2 fieldsetId rest
        | none => none

/-- `getData(fieldsetId?)`: start from a deep copy of the (truthy) initial
values — an empty object otherwise — and run the fieldset loop over
`this.sets`.  `none` models a thrown error. -/
def getData (st : FCP) (fieldsetId : Option String) : Option Json :=
  getDataSets (if jsTruthy st.initialValues then st.initialValues else Json.obj [])
    fieldsetId st.sets

/-- The patch path of a field: `field.ctx.pointer || '/' + field.ctx.name`. -/
def patchPath (f : FieldVM) : String :=
  if f.ctx.pointer == "" then "/" ++ f.ctx.name else f.ctx.pointer

/-- Whether a field counts as dirty in `getPatchOperations`
(`!!field.instance && !!field.instance.dirty`). -/
def fieldDirty (f : FieldVM) : Bool :=
  match f.inst with
  | some inst => inst.dirty
  | none => false

/-- The operations contributed by one field in `getPatchOperations`: nothing
unless mounted and dirty; the field's own generator when it implements
`PatchableFormField` (a returned array is always truthy, so it is always
concatenated); otherwise add/remove/replace derived from initial-vs-current
emptiness, with a preceding `test` on the remove and replace branches when
`includeTests` is set. -/
def fieldPatchOps (initialValues : Json) (includeTests : Bool) (f : FieldVM) :
    List PatchOp :=
  match f.inst with
  | none => []
  | some inst =>
      if !inst.dirty then []
      else
        match inst.patchOps with
        | some gen => gen includeTests
        | none =>
            let path := patchPath f
            let iv := (pointerGet initialValues path).getD Json.undefined
            let initEmpty := isUndefJson inst.initialValue || isUndefJson iv
            let changeEmpty := isUndefJson inst.value
            if initEmpty && !changeEmpty then
              [{ op := .add, path := path, value := some inst.value }]
            else if !initEmpty && changeEmpty then
              (if includeTests then
                [{ op := .test, path := path, value := some inst.initialValue }]
              else []) ++ [{ op := .remove, path := path, value := none }]
            else
              (if includeTests then
                [{ op := .test, path := path, value := some inst.initialValue }]
              else []) ++ [{ op := .replace, path := path, value := some inst.value }]

/-- `getPatchOperations(includeTests = true)`: accumulate each visited
field's operations, in `each`'s default iteration order (the unfiltered
`mapped` list). -/
def getPatchOperations (st : FCP) (includeTests : Bool) : List PatchOp :=
  ((eachList st true).map (fieldPatchOps st.initialValues includeTests)).flatten

end FieldContextProvider

/-! Concrete `FieldContextProvider` states used by the theorems below. -/

/-- A never-mounted field at pointer `/a/b` (as built by
`_mapFieldFromSchema`: `instance: void 0`, `visible: true`). -/
def exampleFieldAB : FieldVM :=
  { visible := true, inst := none,
    ctx := { id := "s1-b", name := "b", pointer := "/a/b", required := false,
             metaType := "string" } }

/-- A never-mounted field at pointer `/a`. -/
def exampleFieldA : FieldVM :=
  { visible := true, inst := none,
    ctx := { id := "s2-a", name := "a", pointer := "/a", required := false,
             metaType := "string" } }

/-- A fieldset whose single field (hence whose common root pointer) is
`/a/b`. -/
def exampleSetAB : FormFieldSet :=
  { id := "s1", pointer := "/a/b", fields := [exampleFieldAB] }

/-- A fieldset whose single field (hence whose common root pointer) is
`/a`. -/
def exampleSetA : FormFieldSet :=
  { id := "s2", pointer := "/a", fields := [exampleFieldA] }

/-- A provider state immediately after construction (`sets = mapped`, no
instances) whose initial values hold an empty object at `/a`, with a second
fieldset rooted at the absent pointer `/a/b`. -/
def exampleStateC7 : FCP :=
  { mapped := [exampleSetAB, exampleSetA]
    sets := [exampleSetAB, exampleSetA]
    initialValues := Json.obj [("a", Json.obj [])] }

/-- What `getData()` returns on `exampleStateC7`. -/
def exampleC7Result : Json :=
  Json.obj [("a", Json.obj [("b", Json.obj [])])]

/-- A provider state whose only fieldset pointer is present in the initial
values. -/
def exampleStateC7W : FCP :=
  { mapped := [exampleSetA]
    sets := [exampleSetA]
    initialValues := Json.obj [("a", Json.obj [])] }

/-- A dirty mounted instance with no prior value (field and form both). -/
def exampleInstAdd : FieldInstance :=
  { value := Json.str "Acme", initialValue := Json.undefined, dirty := true,
    patchOps := none }

/-- A dirty mounted instance replacing an existing value. -/
def exampleInstReplace : FieldInstance :=
  { value := Json.str "new", initialValue := Json.str "old", dirty := true,
    patchOps := none }

/-- The `/name` field carrying `exampleInstAdd`. -/
def exampleFieldNameAdd : FieldVM :=
  { visible := true, inst := some exampleInstAdd,
    ctx := { id := "d-name", name := "name", pointer := "/name",
             required := true, metaType := "string" } }

/-- The `/name` field carrying `exampleInstReplace`. -/
def exampleFieldNameReplace : FieldVM :=
  { visible := true, inst := some exampleInstReplace,
    ctx := { id := "d-name", name := "name", pointer := "/name",
             required := true, metaType := "string" } }

/-- A one-field form in create mode (no initial values): the dirty field has
no prior value. -/
def exampleStateC8Add : FCP :=
  { mapped := [{ id := "d", pointer := "/", fields := [exampleFieldNameAdd] }]
    sets := [{ id := "d", pointer := "/", fields := [exampleFieldNameAdd] }]
    initialValues := Json.undefined }

/-- A one-field form whose dirty field replaces the prior value `"old"`. -/
def exampleStateC8Replace : FCP :=
  { mapped := [{ id := "d", pointer := "/", fields := [exampleFieldNameReplace] }]
    sets := [{ id := "d", pointer := "/", fields := [exampleFieldNameReplace] }]
    initialValues := Json.obj [("name", Json.str "old")] }

/-! ### Theorems for claims C1, C2, C3 (LinkedDataCache)

The selector-based `removeBy` keeps exactly the items its selector marked for
removal (`filtered` collects the `selector === true` items and then *replaces*
the cache) — the inverse of its own doc comment "(true = remove, false =
keep)".  The three theorems below evaluate the class at the concrete failing
inputs of the corresponding claims. -/

/-- C1: pushing twice for the same (schemaId, link) key does *not* overwrite:
after `push("s","l",_,_,P1)` then `push("s","l",_,_,P2)` on an empty cache,
`fetch("s","l")` returns `P1` (not `P2`) and the cache holds two entries for
the key, because `removeBy` keeps the matching entry instead of removing it.
This contradicts the claim (and `push`'s own doc comment "Will overwrite any
existing data for the given combination"). -/
theorem C1_push_not_last_write_wins :
    LinkedDataCache.fetch "s" "l" none
        (LinkedDataCache.push "s" "l" none [] 2
          (LinkedDataCache.push "s" "l" none [] 1 [])) = some 1 ∧
    (LinkedDataCache.push "s" "l" none [] 2
        (LinkedDataCache.push "s" "l" none [] 1 [])).length = 2 := by
  decide

/-- C2: `purge('schemaA')` on a cache holding one entry with
`schemaId = 'schemaA'` and one with `targetSchemaId = 'schemaA'` removes
*neither* entry in the current variant (both match the selector, so
`removed = 0` and the cache is left untouched), and the earlier splice-loop
variant removes only the first of the two.  The claim (and `purge`'s doc
comment "Purge all cached items with the given schemaId") says both are
removed. -/
theorem C2_purge_removes_neither_entry :
    LinkedDataCache.purge "schemaA"
        [{ schemaId := "schemaA", link := "l1", targetSchemaId := none,
           properties := [], state := 1 },
         { schemaId := "other", link := "l2", targetSchemaId := some "schemaA",
           properties := [], state := 2 }] =
      [{ schemaId := "schemaA", link := "l1", targetSchemaId := none,
         properties := [], state := 1 },
       { schemaId := "other", link := "l2", targetSchemaId := some "schemaA",
         properties := [], state := 2 }] ∧
    LinkedDataCacheEarly.purge "schemaA"
        [{ schemaId := "schemaA", link := "l1", targetSchemaId := none,
           properties := [], state := 1 },
         { schemaId := "other", link := "l2", targetSchemaId := some "schemaA",
           properties := [], state := 2 }] =
      [{ schemaId := "other", link := "l2", targetSchemaId := some "schemaA",
         properties := [], state := 2 }] := by
  decide

/-- C3: `invalidate('s', ['p'])` on a cache holding a matching entry
(schemaId `'s'`, dependency property `'p'`) and an unrelated entry for schema
`'t'` *keeps* the matching entry and *removes* the unrelated one: `removeBy`
replaces the cache with the selected items.  The claim says exactly the
matching entry is removed and entries of other schema ids are untouched. -/
theorem C3_invalidate_removes_unrelated_entry :
    LinkedDataCache.invalidate "s" (some ["p"])
        [{ schemaId := "s", link := "l1", targetSchemaId := none,
           properties := ["p"], state := 1 },
         { schemaId := "t", link := "l2", targetSchemaId := none,
           properties := ["q"], state := 2 }] =
      [{ schemaId := "s", link := "l1", targetSchemaId := none,
         properties := ["p"], state := 1 }] := by
  decide

/-! ### Theorems for claim C4 (CachedDataProvider memoization) -/

/-- C4, counterexample: with promise `7` memoized under key `"sl"`,
`resolveAgent("s","l", _, forceReload = true)` returns the *memoized*
promise `7` and leaves the memo unchanged — it does not bypass the memo and
resolve freshly (which would return the new promise `9`), contrary to the
claim that `forceReload=true` "also bypasses the memo but persists the newly
resolved promise". -/
theorem C4_forceReload_true_uses_memo :
    CachedDataProvider.resolveAgent [("sl", 7)] "s" "l" (some true) 9 =
      (7, [("sl", 7)]) ∧ (7 : Nat) ≠ 9 := by
  decide

/-- C4, amended: `resolveAgent` memoizes under `schemaId + linkName` and
`resolveAgentChild` under `schemaId + linkName + 'child'` (the latter only on
its resolve-through branch).  A call with `forceReload = false` bypasses the
memo, performs a fresh resolution and *persists* the new promise; a call with
any other `forceReload` value (`true` or omitted) returns the memoized
promise when one exists, and on a miss resolves freshly and persists. -/
theorem C4_memoization_characterized (memo : CachedDataProvider.Memo)
    (s l : String) (fresh : Nat) :
    (CachedDataProvider.resolveAgent memo s l (some false) fresh =
        (fresh, CachedDataProvider.memoSet memo (s ++ l) fresh)) ∧
    (∀ fr p, CachedDataProvider.neqFalseJS fr = true →
        CachedDataProvider.memoGet memo (s ++ l) = some p →
        CachedDataProvider.resolveAgent memo s l fr fresh = (p, memo)) ∧
    (∀ fr, CachedDataProvider.memoGet memo (s ++ l) = none →
        CachedDataProvider.resolveAgent memo s l fr fresh =
          (fresh, CachedDataProvider.memoSet memo (s ++ l) fresh)) ∧
    (∀ fr p hasLink hasUri frc cf, CachedDataProvider.neqFalseJS fr = true →
        CachedDataProvider.memoGet memo (s ++ l ++ "child") = some p →
        CachedDataProvider.resolveAgentChild memo s l fr hasLink hasUri frc cf =
          (CachedDataProvider.ChildOutcome.memoHit p, memo)) ∧
    (∀ hasUri cf, CachedDataProvider.isCrudLink l = false →
        CachedDataProvider.resolveAgentChild memo s l (some false) true hasUri
            (some true) cf =
          (CachedDataProvider.ChildOutcome.childResolved cf,
            CachedDataProvider.memoSet memo (s ++ l ++ "child") cf)) := by
  refine ⟨?_, ?_, ?_, ?_, ?_⟩
  · unfold CachedDataProvider.resolveAgent
    cases h : CachedDataProvider.memoGet memo (s ++ l) <;>
      simp [h, CachedDataProvider.neqFalseJS]
  · intro fr p hfr hp
    unfold CachedDataProvider.resolveAgent
    simp [hp, hfr]
  · intro fr hp
    unfold CachedDataProvider.resolveAgent
    simp [hp]
  · intro fr p hasLink hasUri frc cf hfr hp
    unfold CachedDataProvider.resolveAgentChild
    simp [hp, hfr]
  · intro hasUri cf hl
    unfold CachedDataProvider.resolveAgentChild
    cases h : CachedDataProvider.memoGet memo (s ++ l ++ "child") <;>
      simp [h, CachedDataProvider.neqFalseJS,
        CachedDataProvider.resolveAgentChild.resolveAgentChildMiss, hl]

/-- C4, witness: the amended theorem applied at a concrete memo holding `7`
under key `"sl"`, with `forceReload = true`. -/
theorem C4_memoization_characterized_witness :
    CachedDataProvider.neqFalseJS (some true) = true ∧
    CachedDataProvider.memoGet [("sl", 7)] ("s" ++ "l") = some 7 ∧
    CachedDataProvider.resolveAgent [("sl", 7)] "s" "l" (some true) 9 =
      (7, [("sl", 7)]) :=
  ⟨by decide, by decide,
    (C4_memoization_characterized [("sl", 7)] "s" "l" 9).2.1 (some true) 7
      (by decide) (by decide)⟩

/-! ### Theorems for claims C5, C6 (SimplifiedResourceMapper)

The comparator `compareResources` is only a consistent comparator on records
whose `order` is an actual number; on a `NaN` order (`none`, produced by
`getOrder` for a declared order property with an unparseable value) both
`===` and `>` are false, so the comparator answers `-1` both ways and the
sort result need not satisfy the claimed ordering.  The helper lemmas prove
sortedness of `sortCmp` for a comparator total on the elements at hand. -/

namespace SimplifiedResourceMapper

theorem mem_insertCmp {α : Type} (cmp : α → α → Int) (x : α) :
    ∀ (l : List α), ∀ y ∈ insertCmp cmp x l, y = x ∨ y ∈ l
  | [] => by
      intro y hy
      simp only [insertCmp, List.mem_singleton] at hy
      exact Or.inl hy
  | z :: zs => by
      intro y hy
      simp only [insertCmp] at hy
      by_cases h : cmp x z ≤ 0
      · rw [if_pos h] at hy
        rcases List.mem_cons.mp hy with hy | hy
        · exact Or.inl hy
        · exact Or.inr hy
      · rw [if_neg h] at hy
        rcases List.mem_cons.mp hy with hy | hy
        · exact Or.inr (hy ▸ List.mem_cons_self z zs)
        · rcases mem_insertCmp cmp x zs y hy with hy' | hy'
          · exact Or.inl hy'
          · exact Or.inr (List.mem_cons_of_mem z hy')

theorem chain'_insertCmp {α : Type} (cmp : α → α → Int) (P : α → Prop)
    (tot : ∀ a b, P a → P b → cmp a b ≤ 0 ∨ cmp b a ≤ 0)
    (x : α) (hx : P x) :
    ∀ (l : List α), (∀ y ∈ l, P y) →
      List.Chain' (fun a b => cmp a b ≤ 0) l →
      List.Chain' (fun a b => cmp a b ≤ 0) (insertCmp cmp x l)
  | [] => by
      intro _ _
      simp only [insertCmp]
      exact List.chain'_singleton x
  | z :: zs => by
      intro hl hc
      simp only [insertCmp]
      by_cases h : cmp x z ≤ 0
      · rw [if_pos h]
        exact List.chain'_cons.mpr ⟨h, hc⟩
      · rw [if_neg h]
        have hzP : P z := hl z (List.mem_cons_self z zs)
        have hzx : cmp z x ≤ 0 := by
          rcases tot x z hx hzP with h' | h'
          · exact absurd h' h
          · exact h'
        have hzs : ∀ y ∈ zs, P y := fun y hy => hl y (List.mem_cons_of_mem z hy)
        have ih := chain'_insertCmp cmp P tot x hx zs hzs hc.tail
        rw [List.chain'_cons']
        refine ⟨?_, ih⟩
        intro w hw
        cases zs with
        | nil =>
            simp only [insertCmp, List.head?_cons, Option.mem_def,
              Option.some.injEq] at hw
            exact hw ▸ hzx
        | cons u us =>
            simp only [insertCmp] at hw
            by_cases h2 : cmp x u ≤ 0
            · rw [if_pos h2] at hw
              simp only [List.head?_cons, Option.mem_def, Option.some.injEq] at hw
              exact hw ▸ hzx
            · rw [if_neg h2] at hw
              simp only [List.head?_cons, Option.mem_def, Option.some.injEq] at hw
              exact hw ▸ (List.chain'_cons.mp hc).1

theorem mem_sortCmp {α : Type} (cmp : α → α → Int) :
    ∀ (l : List α), ∀ y ∈ sortCmp cmp l, y ∈ l
  | [] => by simp [sortCmp]
  | x :: xs => by
      intro y hy
      simp only [sortCmp] at hy
      rcases mem_insertCmp cmp x (sortCmp cmp xs) y hy with h | h
      · exact h ▸ List.mem_cons_self x xs
      · exact List.mem_cons_of_mem x (mem_sortCmp cmp xs y h)

theorem chain'_sortCmp {α : Type} (cmp : α → α → Int) (P : α → Prop)
    (tot : ∀ a b, P a → P b → cmp a b ≤ 0 ∨ cmp b a ≤ 0) :
    ∀ (l : List α), (∀ y ∈ l, P y) →
      List.Chain' (fun a b => cmp a b ≤ 0) (sortCmp cmp l)
  | [] => by
      intro _
      simp [sortCmp]
  | x :: xs => by
      intro hl
      simp only [sortCmp]
      exact chain'_insertCmp cmp P tot x (hl x (List.mem_cons_self x xs))
        (sortCmp cmp xs)
        (fun y hy => hl y (List.mem_cons_of_mem x (mem_sortCmp cmp xs y hy)))
        (chain'_sortCmp cmp P tot xs
          (fun y hy => hl y (List.mem_cons_of_mem x hy)))

theorem chain'_imp_mem {α : Type} {R S : α → α → Prop} :
    ∀ {l : List α}, (∀ a ∈ l, ∀ b ∈ l, R a b → S a b) →
      List.Chain' R l → List.Chain' S l
  | [], _, _ => List.chain'_nil
  | [a], _, _ => List.chain'_singleton a
  | a :: b :: l, h, hc => by
      rw [List.chain'_cons] at hc ⊢
      refine ⟨h a (List.mem_cons_self a (b :: l))
        b (List.mem_cons_of_mem a (List.mem_cons_self b l)) hc.1, ?_⟩
      exact chain'_imp_mem
        (fun x hx y hy => h x (List.mem_cons_of_mem a hx) y (List.mem_cons_of_mem a hy))
        hc.2

/-- `compareResources` is total on records with non-`NaN` orders. -/
theorem tot_compareResources (a b : SimplifiedLinkedResource)
    (ha : a.order.isSome = true) (hb : b.order.isSome = true) :
    compareResources a b ≤ 0 ∨ compareResources b a ≤ 0 := by
  rcases Option.isSome_iff_exists.mp ha with ⟨x, hx⟩
  rcases Option.isSome_iff_exists.mp hb with ⟨y, hy⟩
  by_cases hxy : x = y
  · subst hxy
    simp only [compareResources, numStrictEq, hx, hy, beq_self_eq_true, if_true,
      localeCompare]
    by_cases h1 : jsToString a.name < jsToString b.name
    · left
      simp [h1]
    · by_cases h2 : jsToString b.name < jsToString a.name
      · right
        simp [h1, h2]
      · left
        simp [h1, h2]
  · have hbeq : (x == y) = false := beq_eq_false_iff_ne.mpr hxy
    have hbeq' : (y == x) = false := beq_eq_false_iff_ne.mpr (Ne.symm hxy)
    simp only [compareResources, numStrictEq, numGtJS, hx, hy, hbeq, hbeq',
      Bool.false_eq_true, if_false]
    by_cases hyx : y < x
    · right
      have : ¬ x < y := lt_asymm hyx
      simp [this]
    · left
      simp [hyx]

/-- On non-`NaN` orders, `compareResources a b ≤ 0` entails the claimed
ordering relation. -/
theorem claimLe_of_compare_le (a b : SimplifiedLinkedResource)
    (ha : a.order.isSome = true) (hb : b.order.isSome = true)
    (h : compareResources a b ≤ 0) : claimLe a b = true := by
  rcases Option.isSome_iff_exists.mp ha with ⟨x, hx⟩
  rcases Option.isSome_iff_exists.mp hb with ⟨y, hy⟩
  by_cases hxy : x = y
  · subst hxy
    simp only [compareResources, numStrictEq, hx, hy, beq_self_eq_true, if_true,
      localeCompare] at h
    simp only [claimLe, hx, hy, beq_self_eq_true, Bool.true_and]
    by_cases h2 : jsToString b.name < jsToString a.name
    · by_cases h1 : jsToString a.name < jsToString b.name
      · exact absurd h1 (lt_asymm h2)
      · rw [if_neg h1, if_pos h2] at h
        omega
    · have : jsToString a.name ≤ jsToString b.name := le_of_not_lt h2
      simp [this]
  · have hbeq : (x == y) = false := beq_eq_false_iff_ne.mpr hxy
    simp only [compareResources, numStrictEq, numGtJS, hx, hy, hbeq,
      Bool.false_eq_true, if_false] at h
    by_cases hyx : y < x
    · rw [if_pos (by simpa using hyx)] at h
      omega
    · have hlt : x < y := lt_of_le_of_ne (le_of_not_lt hyx) hxy
      simp [claimLe, hx, hy, hlt]

/-- Sortedness of the claimed relation for any record list with non-`NaN`
orders. -/
theorem chain'_claimLe_sortCmp (l : List SimplifiedLinkedResource)
    (hP : ∀ r ∈ l, r.order.isSome = true) :
    List.Chain' (fun a b => claimLe a b = true) (sortCmp compareResources l) := by
  have hchain := chain'_sortCmp compareResources
    (fun r => r.order.isSome = true) tot_compareResources l hP
  refine chain'_imp_mem ?_ hchain
  intro a haMem b hbMem hab
  exact claimLe_of_compare_le a b (hP a (mem_sortCmp _ _ a haMem))
    (hP b (mem_sortCmp _ _ b hbMem)) hab

end SimplifiedResourceMapper

/-- C5, counterexample: with a declared order property `"o"`, the item
`exampleItemNanOrder` maps to a record with `NaN` order.  `transform` on
`[exampleItemNanOrder, exampleItemZeroOrder]` returns the `NaN`-ordered
record first, and that adjacent pair satisfies neither `a.order < b.order`
nor `a.order === b.order && a.name <= b.name` (both comparisons with `NaN`
are false) — in the opposite output order the pair would fail the claimed
ordering as well. -/
theorem C5_transform_not_always_sorted :
    SimplifiedResourceMapper.transform exampleMapper
        [exampleItemNanOrder, exampleItemZeroOrder] none =
      [exampleResourceNan, exampleResourceZero] ∧
    SimplifiedResourceMapper.claimLe exampleResourceNan exampleResourceZero = false ∧
    SimplifiedResourceMapper.claimLe exampleResourceZero exampleResourceNan = false ∧
    ¬ List.Chain' (fun a b => SimplifiedResourceMapper.claimLe a b = true)
      (SimplifiedResourceMapper.transform exampleMapper
        [exampleItemNanOrder, exampleItemZeroOrder] none) := by
  refine ⟨rfl, by decide, by decide, ?_⟩
  intro h
  rw [show SimplifiedResourceMapper.transform exampleMapper
      [exampleItemNanOrder, exampleItemZeroOrder] none =
    [exampleResourceNan, exampleResourceZero] from rfl] at h
  exact absurd (List.chain'_pair.mp h) (by decide)

/-- C5, amended: *provided every item's computed order is an actual number*
(no `NaN` from a declared order property with an invalid value),
`transform` returns the mapped records sorted ascending: every adjacent pair
`(a, b)` satisfies `a.order < b.order`, or `a.order === b.order` with
`a.name` at most `b.name` in the (code-point-modelled) locale string order. -/
theorem C5_transform_sorted (m : Mapper) (items : List Item) (inc : Option Bool)
    (h : ∀ item ∈ items, (SimplifiedResourceMapper.getOrder m item).isSome = true) :
    List.Chain' (fun a b => SimplifiedResourceMapper.claimLe a b = true)
      (SimplifiedResourceMapper.transform m items inc) := by
  refine SimplifiedResourceMapper.chain'_claimLe_sortCmp _ ?_
  intro r hr
  rcases List.mem_map.mp hr with ⟨item, hitem, rfl⟩
  exact h item hitem

/-- C5, witness: the amended theorem applied to two items with parseable
declared orders `"5"` and `3`. -/
theorem C5_transform_sorted_witness :
    (∀ item ∈ [exampleItemFive, exampleItemThree],
      (SimplifiedResourceMapper.getOrder exampleMapper item).isSome = true) ∧
    List.Chain' (fun a b => SimplifiedResourceMapper.claimLe a b = true)
      (SimplifiedResourceMapper.transform exampleMapper
        [exampleItemFive, exampleItemThree] (some true)) :=
  ⟨by decide,
    C5_transform_sorted exampleMapper [exampleItemFive, exampleItemThree]
      (some true) (by decide)⟩

/-- C6, counterexample: with a declared order property (`data.order = "o"`),
an item whose `"o"` value is the unparseable string `"x"` makes `getOrder`
return `NaN` (`none`) — not a finite number and not `0`:
the `|| 0` coercion exists only in the branch without a declared order
property. -/
theorem C6_getOrder_nan_on_declared_invalid :
    SimplifiedResourceMapper.getOrder exampleMapper exampleItemNanOrder = none ∧
    SimplifiedResourceMapper.getOrder exampleMapper exampleItemNanOrder ≠ some 0 := by
  exact ⟨rfl, by decide⟩

/-- C6, amended: when no order property is declared, `getOrder` returns the
conventional `order` property parsed as an integer with invalid/missing
values coerced to `0` (always a finite number); when an order property *is*
declared, `getOrder` returns `parseInt(item[declared], 10)` with no
coercion, so an invalid or missing value yields `NaN`. -/
theorem C6_getOrder_characterized (m : Mapper) (item : Item) :
    (m.data.bind (fun d => d.order) = none →
      ∃ n : Int, SimplifiedResourceMapper.getOrder m item = some n ∧
        (parseIntJS (jsIndex item "order") = none → n = 0)) ∧
    (∀ key, m.data.bind (fun d => d.order) = some key →
      SimplifiedResourceMapper.getOrder m item = parseIntJS (jsIndex item key)) := by
  constructor
  · intro h
    refine ⟨(parseIntJS (jsIndex item "order")).getD 0, ?_, ?_⟩
    · unfold SimplifiedResourceMapper.getOrder
      rw [h]
    · intro hnone
      rw [hnone]
      rfl
  · intro key h
    unfold SimplifiedResourceMapper.getOrder
    rw [h]

/-- C6, witness: both branches of the amended theorem at concrete inputs —
the undeclared branch coerces the unparseable conventional value to `0`, and
the declared branch yields `NaN` for the same unparseable string. -/
theorem C6_getOrder_characterized_witness :
    (exampleMapperConv.data.bind (fun d => d.order) = none ∧
      ∃ n : Int,
        SimplifiedResourceMapper.getOrder exampleMapperConv exampleItemNanOrder = some n ∧
        (parseIntJS (jsIndex exampleItemNanOrder "order") = none → n = 0)) ∧
    (exampleMapper.data.bind (fun d => d.order) = some "o" ∧
      SimplifiedResourceMapper.getOrder exampleMapper exampleItemNanOrder =
        parseIntJS (jsIndex exampleItemNanOrder "o")) :=
  ⟨⟨rfl, (C6_getOrder_characterized exampleMapperConv exampleItemNanOrder).1 rfl⟩,
   ⟨rfl, (C6_getOrder_characterized exampleMapper exampleItemNanOrder).2 "o" rfl⟩⟩

/-! ### Theorems for claim C7 (FieldContextProvider.getData round-trip) -/

namespace FieldContextProvider

theorem getDataFields_no_inst (res : Json) :
    ∀ (fields : List FieldVM),
      (∀ f ∈ fields, f.inst.isNone = true ∧ (f.ctx.pointer == "") = false) →
      getDataFields res fields = some res
  | [] => fun _ => rfl
  | f :: rest => fun h => by
      obtain ⟨hi, hp⟩ := h f (List.mem_cons_self f rest)
      have hnone : f.inst = none := Option.isNone_iff_eq_none.mp hi
      unfold getDataFields
      rw [hp]
      simp only [Bool.false_eq_true, if_false, hnone]
      exact getDataFields_no_inst res rest
        (fun g hg => h g (List.mem_cons_of_mem f hg))

theorem getDataSets_no_inst (iv : Json) :
    ∀ (sets : List FormFieldSet),
      (∀ s ∈ sets, ∀ f ∈ s.fields,
        f.inst.isNone = true ∧ (f.ctx.pointer == "") = false) →
      (∀ s ∈ sets, 1 < s.pointer.length → pointerHas iv s.pointer = true) →
      getDataSets iv none sets = some iv
  | [] => fun _ _ => rfl
  | s :: rest => fun hf hp => by
      unfold getDataSets
      have hr1 : (if decide (1 < s.pointer.length) && !(pointerHas iv s.pointer) then
          pointerSet iv s.pointer (Json.obj []) else iv) = iv := by
        by_cases hlen : 1 < s.pointer.length
        · rw [hp s (List.mem_cons_self s rest) hlen]
          simp [hlen]
        · simp [hlen]
      simp only [ne_eq, hr1]
      rw [getDataFields_no_inst iv s.fields (hf s (List.mem_cons_self s rest))]
      exact getDataSets_no_inst iv rest
        (fun t ht => hf t (List.mem_cons_of_mem s ht))
        (fun t ht => hp t (List.mem_cons_of_mem s ht))

end FieldContextProvider

/-- C7, counterexample: on a provider constructed with initial values
`{a: {}}`, no mounted field instances, and fieldsets rooted at `/a/b` and
`/a` (each fieldset's pointer being its own field's pointer), `getData()`
first plants an empty object at the absent fieldset pointer `/a/b`, which
rewrites the value at the *field* pointer `/a` — present in the initial
values as `{}` — into `{b: {}}`.  The result therefore does not hold the
original value at every field pointer that was present in the initial-values
object. -/
theorem C7_getData_fieldset_pointer_clobbers :
    FieldContextProvider.getData exampleStateC7 none = some exampleC7Result ∧
    pointerGet exampleStateC7.initialValues "/a" = some (Json.obj []) ∧
    pointerGet exampleC7Result "/a" = some (Json.obj [("b", Json.obj [])]) ∧
    Json.obj [("b", Json.obj [])] ≠ Json.obj [] := by
  refine ⟨rfl, rfl, rfl, ?_⟩
  intro h
  injection h with h'
  cases h'

/-- C7, amended: immediately after construction (every field's `instance`
still unset, every field pointer non-empty) and with a truthy initial-values
object, `getData()` returns the initial values unchanged — hence reproduces
the value at every pointer present in them — *provided* every fieldset
pointer longer than `"/"` is already present in the initial values (the code
otherwise first inserts an empty object at such a pointer, which can rewrite
an object value at a shorter field pointer). -/
theorem C7_getData_initial_roundtrip (st : FCP)
    (hf : ∀ s ∈ st.sets, ∀ f ∈ s.fields,
      f.inst.isNone = true ∧ (f.ctx.pointer == "") = false)
    (htruthy : jsTruthy st.initialValues = true)
    (hp : ∀ s ∈ st.sets, 1 < s.pointer.length →
      pointerHas st.initialValues s.pointer = true) :
    FieldContextProvider.getData st none = some st.initialValues ∧
    (∀ ptr v, pointerGet st.initialValues ptr = some v →
      ∃ r, FieldContextProvider.getData st none = some r ∧
        pointerGet r ptr = some v) := by
  have hmain : FieldContextProvider.getData st none = some st.initialValues := by
    unfold FieldContextProvider.getData
    rw [htruthy]
    simp only [if_true]
    exact FieldContextProvider.getDataSets_no_inst st.initialValues st.sets hf hp
  exact ⟨hmain, fun ptr v hv => ⟨st.initialValues, hmain, hv⟩⟩

/-- C7, witness: the amended theorem applied to a concrete provider with one
fieldset at `/a` and initial values `{a: {}}`. -/
theorem C7_getData_initial_roundtrip_witness :
    (∀ s ∈ exampleStateC7W.sets, ∀ f ∈ s.fields,
      f.inst.isNone = true ∧ (f.ctx.pointer == "") = false) ∧
    jsTruthy exampleStateC7W.initialValues = true ∧
    (∀ s ∈ exampleStateC7W.sets, 1 < s.pointer.length →
      pointerHas exampleStateC7W.initialValues s.pointer = true) ∧
    FieldContextProvider.getData exampleStateC7W none =
      some exampleStateC7W.initialValues :=
  ⟨by decide, by decide, by decide,
    (C7_getData_initial_roundtrip exampleStateC7W (by decide) (by decide)
      (by decide)).1⟩

/-! ### Theorems for claim C8 (getPatchOperations) -/

namespace FieldContextProvider

theorem fieldPatchOps_eq_nil (ivs : Json) (b : Bool) (g : FieldVM)
    (h : fieldDirty g = false) : fieldPatchOps ivs b g = [] := by
  unfold fieldDirty at h
  unfold fieldPatchOps
  match hg : g.inst with
  | none => simp
  | some i =>
      rw [hg] at h
      simp only [] at h
      simp [h]

theorem flatten_patchOps_eq_nil (ivs : Json) (b : Bool) :
    ∀ (l : List FieldVM), (∀ g ∈ l, fieldDirty g = false) →
      (l.map (fieldPatchOps ivs b)).flatten = []
  | [] => fun _ => rfl
  | g :: rest => fun h => by
      simp only [List.map_cons, List.flatten_cons,
        fieldPatchOps_eq_nil ivs b g (h g (List.mem_cons_self g rest)),
        List.nil_append]
      exact flatten_patchOps_eq_nil ivs b rest
        (fun x hx => h x (List.mem_cons_of_mem g hx))

end FieldContextProvider

/-- C8: `getPatchOperations` on a form with no dirty field returns `[]`; and
when exactly one visited field is dirty — mounted, without its own
patch-operation generator, with a defined (non-`undefined`) current value —
the result is exactly one `add` operation at the field's path when the field
had no prior value (its instance's initial value or the form's initial value
at the path is `undefined`), and otherwise a `replace` at that path,
preceded by a `test` asserting the initial value exactly when `includeTests`
is true. -/
theorem C8_getPatchOperations_characterized (st : FCP) (b : Bool) :
    ((∀ g ∈ FieldContextProvider.eachList st true,
        FieldContextProvider.fieldDirty g = false) →
      FieldContextProvider.getPatchOperations st b = []) ∧
    (∀ l₁ l₂ f inst,
      FieldContextProvider.eachList st true = l₁ ++ f :: l₂ →
      (∀ g ∈ l₁ ++ l₂, FieldContextProvider.fieldDirty g = false) →
      f.inst = some inst →
      inst.dirty = true →
      inst.patchOps = none →
      isUndefJson inst.value = false →
      (((isUndefJson inst.initialValue ||
          isUndefJson ((pointerGet st.initialValues
            (FieldContextProvider.patchPath f)).getD Json.undefined)) = true →
        FieldContextProvider.getPatchOperations st b =
          [{ op := .add, path := FieldContextProvider.patchPath f,
             value := some inst.value }]) ∧
       ((isUndefJson inst.initialValue ||
          isUndefJson ((pointerGet st.initialValues
            (FieldContextProvider.patchPath f)).getD Json.undefined)) = false →
        FieldContextProvider.getPatchOperations st b =
          (if b then
            [{ op := .test, path := FieldContextProvider.patchPath f,
               value := some inst.initialValue }]
          else []) ++
            [{ op := .replace, path := FieldContextProvider.patchPath f,
               value := some inst.value }]))) := by
  constructor
  · intro h
    unfold FieldContextProvider.getPatchOperations
    exact FieldContextProvider.flatten_patchOps_eq_nil st.initialValues b _ h
  · intro l₁ l₂ f inst heq hrest hfinst hdirty hgen hval
    have hl₁ : (l₁.map (FieldContextProvider.fieldPatchOps st.initialValues b)).flatten = [] :=
      FieldContextProvider.flatten_patchOps_eq_nil st.initialValues b l₁
        (fun g hg => hrest g (List.mem_append_left l₂ hg))
    have hl₂ : (l₂.map (FieldContextProvider.fieldPatchOps st.initialValues b)).flatten = [] :=
      FieldContextProvider.flatten_patchOps_eq_nil st.initialValues b l₂
        (fun g hg => hrest g (List.mem_append_right l₁ hg))
    have hmain : FieldContextProvider.getPatchOperations st b =
        FieldContextProvider.fieldPatchOps st.initialValues b f := by
      unfold FieldContextProvider.getPatchOperations
      rw [heq, List.map_append, List.map_cons, List.flatten_append,
        List.flatten_cons, hl₁, hl₂]
      simp
    constructor
    · intro hIE
      rw [hmain]
      unfold FieldContextProvider.fieldPatchOps
      simp [hfinst, hdirty, hgen, hIE, hval]
    · intro hIE
      rw [hmain]
      unfold FieldContextProvider.fieldPatchOps
      simp [hfinst, hdirty, hgen, hIE, hval]

/-- C8, witness: the theorem applied to two concrete one-field forms — the
no-prior-value case produces exactly `[add /name "Acme"]`, and the
prior-value case produces exactly `[test /name "old", replace /name "new"]`
with `includeTests = true`. -/
theorem C8_getPatchOperations_characterized_witness :
    FieldContextProvider.getPatchOperations exampleStateC8Add true =
      [{ op := .add, path := FieldContextProvider.patchPath exampleFieldNameAdd,
         value := some exampleInstAdd.value }] ∧
    FieldContextProvider.getPatchOperations exampleStateC8Replace true =
      (if true then
        [{ op := .test,
           path := FieldContextProvider.patchPath exampleFieldNameReplace,
           value := some exampleInstReplace.initialValue }]
      else []) ++
        [{ op := .replace,
           path := FieldContextProvider.patchPath exampleFieldNameReplace,
           value := some exampleInstReplace.value }] :=
  ⟨((C8_getPatchOperations_characterized exampleStateC8Add true).2
      [] [] exampleFieldNameAdd exampleInstAdd rfl (by intro g hg; cases hg)
      rfl rfl rfl rfl).1 rfl,
   ((C8_getPatchOperations_characterized exampleStateC8Replace true).2
      [] [] exampleFieldNameReplace exampleInstReplace rfl
      (by intro g hg; cases hg) rfl rfl rfl rfl).2 rfl⟩

/-! ### Theorem for claim C9 (BaseFormField value setter) -/

/-- C9: assigning a value strictly equal (`===`) to the current one, or a
nullish value while the current value is nullish, leaves the state unchanged
and emits nothing; any other assignment stores the new value, sets the dirty
flag, and emits exactly one `changed` event carrying that value. -/
theorem C9_setValue_characterized (st : FieldValueState) (val : FVal) :
    ((strictEqFVal val st.value = true ∨
        (isNullishFVal val = true ∧ isNullishFVal st.value = true)) →
      BaseFormField.setValue st val = (st, [])) ∧
    (strictEqFVal val st.value = false →
      (isNullishFVal val = false ∨ isNullishFVal st.value = false) →
      (BaseFormField.setValue st val).1.value = val ∧
      (BaseFormField.setValue st val).1.dirty = true ∧
      (BaseFormField.setValue st val).2 = [val]) := by
  constructor
  · rintro (h | ⟨h1, h2⟩)
    · simp [BaseFormField.setValue, h]
    · simp [BaseFormField.setValue, h1, h2]
  · intro h1 h2
    have hcond : (strictEqFVal val st.value ||
        (isNullishFVal val && isNullishFVal st.value)) = false := by
      rcases h2 with h2 | h2 <;> simp [h1, h2]
    simp [BaseFormField.setValue, hcond]

/-- C9, witness: both branches of the theorem at concrete states — assigning
`undefined` over a `null` current value is a no-op, and assigning the string
`"x"` over `null` stores it, dirties the field, and emits one event. -/
theorem C9_setValue_characterized_witness :
    BaseFormField.setValue { value := FVal.null, dirty := false } FVal.undefined =
      ({ value := FVal.null, dirty := false }, []) ∧
    ((BaseFormField.setValue { value := FVal.null, dirty := false }
        (FVal.str "x")).1.value = FVal.str "x" ∧
      (BaseFormField.setValue { value := FVal.null, dirty := false }
        (FVal.str "x")).1.dirty = true ∧
      (BaseFormField.setValue { value := FVal.null, dirty := false }
        (FVal.str "x")).2 = [FVal.str "x"]) :=
  ⟨(C9_setValue_characterized { value := FVal.null, dirty := false } FVal.undefined).1
      (Or.inr ⟨by decide, by decide⟩),
   (C9_setValue_characterized { value := FVal.null, dirty := false }
      (FVal.str "x")).2 (by decide) (Or.inl (by decide))⟩

/-! ### Theorem for claim C10 (each/extract iterate the inverse of
`visibleOnly`'s name) -/

namespace FieldContextProvider

theorem flatten_filter_nonempty :
    ∀ (l : List FormFieldSet),
      (((l.filter (fun s => decide (0 < s.fields.length))).map
        (fun s => s.fields)).flatten) = ((l.map (fun s => s.fields)).flatten)
  | [] => rfl
  | s :: rest => by
      by_cases h : 0 < s.fields.length
      · rw [List.filter_cons, if_pos (decide_eq_true h)]
        simp only [List.map_cons, List.flatten_cons]
        rw [flatten_filter_nonempty rest]
      · rw [List.filter_cons, if_neg (by simp [decide_eq_false h])]
        have hnil : s.fields = [] :=
          List.length_eq_zero.mp (Nat.le_zero.mp (Nat.not_lt.mp h))
        simp only [List.map_cons, List.flatten_cons, hnil, List.nil_append]
        exact flatten_filter_nonempty rest

theorem flatten_map_filterFields (p : FieldVM → Bool) :
    ∀ (l : List FormFieldSet),
      ((l.map (fun s => { s with fields := s.fields.filter p })).map
        (fun s => s.fields)).flatten =
      ((l.map (fun s => s.fields)).flatten).filter p
  | [] => rfl
  | s :: rest => by
      simp only [List.map_cons, List.flatten_cons, List.filter_append]
      rw [flatten_map_filterFields p rest]

end FieldContextProvider

/-- C10: `each` and `extract` interpret `visibleOnly` inversely to its name:
with `visibleOnly = true` (the default) they visit every field of the
unfiltered master list `mapped` — including fields whose `visible` flag is
false — and with `visibleOnly = false` they visit only the
visibility-filtered `sets` (shown by the last conjunct: after a visibility
recomputation, the fields of `sets` are exactly the `visible`-flagged fields
of `mapped`). -/
theorem C10_each_extract_inverted {T : Type} (st : FCP) (f : FieldVM → T)
    (it : FieldVM → Bool) :
    FieldContextProvider.extract st f true =
      (FieldContextProvider.fieldsOf st.mapped).map f ∧
    FieldContextProvider.extract st f false =
      (FieldContextProvider.fieldsOf st.sets).map f ∧
    FieldContextProvider.eachList st true =
      FieldContextProvider.fieldsOf st.mapped ∧
    FieldContextProvider.eachList st false =
      FieldContextProvider.fieldsOf st.sets ∧
    FieldContextProvider.fieldsOf
        (FieldContextProvider.changeFieldVisibility st it).sets =
      (FieldContextProvider.fieldsOf
        (FieldContextProvider.changeFieldVisibility st it).mapped).filter
          (fun g => g.visible) := by
  refine ⟨rfl, rfl, rfl, rfl, ?_⟩
  unfold FieldContextProvider.changeFieldVisibility FieldContextProvider.fieldsOf
  simp only
  rw [FieldContextProvider.flatten_filter_nonempty,
    FieldContextProvider.flatten_map_filterFields]

end SchemaUI
